import Mathlib

namespace GymSite

/-- Boolean test that `pat` occurs as a contiguous sublist of the second list. -/
def charsInfixOf (pat : List Char) : List Char → Bool
  | [] => pat.isEmpty
  | c :: cs => pat.isPrefixOf (c :: cs) || charsInfixOf pat cs

/-- JS `a.includes(b)`: `b` occurs as a contiguous substring of `a`. -/
def jsIncludes (s pat : String) : Bool :=
  charsInfixOf pat.data s.data

/-- JS `s.toLowerCase()` (ASCII alphabet suffices for this code base). -/
def jsToLower (s : String) : String :=
  ⟨s.data.map Char.toLower⟩

/-- JS `Math.round`: round half toward positive infinity. -/
def jsRound (q : ℚ) : ℤ :=
  ⌊q + 1/2⌋

/-! ## Data model (`models.js`)

`Exercise.type` mirrors the JS field `type` ("compound"/"isolation"); the
substituted exercise literals in `training_engine.js` omit the `type`,
`muscleGroups` and `rpeTarget` fields, which the engine never reads for a
substitute except `rpeTarget`, read through the defaulted
parameter of `adjustLoad` (an absent field is `undefined`, and a JS default parameter value
applies exactly when the argument is `undefined`); the substitutes therefore
carry `rpeTarget := 8` here, with `type := ""` and `muscleGroups := []`.
`Workout.date` is modelled as a `String` (after the JSON
round-trip clone a `Date` is an ISO string; no rule ever reads it). -/

structure Exercise where
  id : String
  name : String
  type : String
  muscleGroups : List String
  weight : ℚ
  sets : ℕ
  reps : ℕ
  rpeTarget : ℚ
deriving Repr, DecidableEq, Inhabited

structure Workout where
  id : String
  userId : String
  name : String
  exercises : List Exercise
  date : String
deriving Repr, DecidableEq, Inhabited

structure Feedback where
  sleepQuality : ℚ
  soreness : ℚ
  stressLevel : String
  painFlags : List String
deriving Repr, DecidableEq, Inhabited

structure User where
  id : String
  name : String
  trainingMaxes : List (String × ℚ)
  injuryHistory : List String
deriving Repr, DecidableEq, Inhabited

structure ExercisePerformance where
  exerciseId : String
  weight : ℚ
  completedReps : ℚ
  completedSets : ℚ
  rpe : ℚ
deriving Repr, DecidableEq, Inhabited

/-- One explanation event, as pushed by the engine.  `transparency.js`
renders each event to a fixed template string; the template text is purely
cosmetic presentation, so each event is modelled structurally as the
adjustment kind together with the exact context fields the engine passes
(`painLocation`/`originalExercise`/`newExercise` for substitutions,
`sleepHours`/`setsRemoved` for volume changes, `lastRpe`/`increaseAmount`
for load changes). -/
inductive Expl where
  | injurySubstitution (painLocation originalExercise newExercise : String)
  | volume (adjustmentType : String) (sleepHours : ℚ) (setsRemoved : String)
  | load (adjustmentType : String) (lastRpe : ℚ) (increaseAmount : ℚ)
deriving Repr, DecidableEq

/-! ## `autoregulator.js` -/

structure LoadAdjustment where
  newWeight : ℚ
  adjustmentType : String
deriving Repr, DecidableEq

structure VolumeAdjustment where
  workout : Workout
  type : String
deriving Repr, DecidableEq

namespace Autoregulator

/-- Model of `Autoregulator.adjustLoad` (autoregulator.js lines 15-45). -/
def adjustLoad (currentWeight rpe targetRpe : ℚ) (missedReps : Bool) : LoadAdjustment :=
  if missedReps then
    { newWeight := currentWeight * (95/100), adjustmentType := "LOAD_DECREASE" }
  else if rpe ≤ targetRpe - 1 then
    { newWeight := currentWeight * (1025/1000), adjustmentType := "LOAD_INCREASE" }
  else if rpe ≥ 95/10 then
    { newWeight := currentWeight * (95/100), adjustmentType := "LOAD_DECREASE" }
  else
    { newWeight := currentWeight, adjustmentType := "MAINTENANCE" }

/-- Model of `Autoregulator.adjustVolume` (autoregulator.js lines 53-76).  The JS
deep clone (`JSON.parse(JSON.stringify(...))`) is the identity on the
value of the workout; `Math.floor(ex.sets * 0.5)` on a natural number of sets is
natural division by 2. -/
def adjustVolume (plannedWorkout : Workout) (readinessScore : ℚ) : VolumeAdjustment :=
  if readinessScore < 40 then
    { workout := { plannedWorkout with
        exercises := plannedWorkout.exercises.map fun ex =>
          { ex with sets := max 1 (ex.sets / 2) } }
      type := "DELOAD" }
  else if readinessScore < 60 then
    { workout := { plannedWorkout with
        exercises := plannedWorkout.exercises.map fun ex =>
          if 1 < ex.sets then { ex with sets := ex.sets - 1 } else ex }
      type := "VOLUME_REDUCTION" }
  else
    { workout := plannedWorkout, type := "MAINTENANCE" }

end Autoregulator

/-! ## `training_engine.js` -/

namespace TrainingEngine

/-- Baseline readiness score, set in the `TrainingEngine` constructor. -/
def baselineReadiness : ℚ := 80

/-- Model of `TrainingEngine.calculateReadiness` (training_engine.js lines 20-36). -/
def calculateReadiness (feedback : Feedback) : ℚ :=
  let score := baselineReadiness
  let score := if feedback.sleepQuality ≤ 4 then score - 20
               else if feedback.sleepQuality ≤ 6 then score - 10
               else if feedback.sleepQuality ≥ 8 then score + 5
               else score
  let score := if feedback.soreness ≥ 4 then score - 10 else score
  let score := if feedback.soreness = 5 then score - 20 else score
  let score := if feedback.stressLevel = "High" then score - 15 else score
  max 0 (min 100 score)

/-- The fixed risk mapping of `isExerciseRisky`, in `Object.entries` order. -/
def riskMap : List (String × List String) :=
  [("knee", ["Squat", "Lunge", "Leg Press"]),
   ("shoulder", ["Bench Press", "Overhead Press", "Dip"]),
   ("back", ["Deadlift", "Row", "Good Morning"])]

/-- Model of `TrainingEngine.isExerciseRisky` (training_engine.js lines 118-135):
the pain flag is lower-cased before the key test, the exercise name is
matched case-sensitively against the risky list. -/
def isExerciseRisky (exercise : Exercise) (painArea : String) : Bool :=
  riskMap.foldl
    (fun foundRisk kv =>
      if jsIncludes (jsToLower painArea) kv.1 then
        if kv.2.any (fun riskyName => jsIncludes exercise.name riskyName) then true
        else foundRisk
      else foundRisk)
    false

/-- Model of `TrainingEngine.getSafeSubstitution` (training_engine.js lines 137-149).
Note the pain-area tests here are **not** lower-cased, unlike
`isExerciseRisky`. -/
def getSafeSubstitution (exercise : Exercise) (painArea : String) : Exercise :=
  if jsIncludes painArea "knee" then
    { id := exercise.id ++ "_sub", name := "Glute Bridge", type := "",
      muscleGroups := [], weight := 0, sets := 3, reps := 15, rpeTarget := 8 }
  else if jsIncludes painArea "shoulder" then
    { id := exercise.id ++ "_sub", name := "Push-up (Neutral Grip)", type := "",
      muscleGroups := [], weight := 0, sets := 3, reps := 12, rpeTarget := 8 }
  else if jsIncludes painArea "back" then
    { id := exercise.id ++ "_sub", name := "Chest Supported Row", type := "",
      muscleGroups := [], weight := exercise.weight * (7/10), sets := 3, reps := 10,
      rpeTarget := 8 }
  else
    { id := "rest", name := "Rest (" ++ painArea ++ " pain)", type := "",
      muscleGroups := [], weight := 0, sets := 0, reps := 0, rpeTarget := 8 }

/-- One pass of the inner `forEach` of step 1 of `generateDailyWorkout`
(lines 52-65): each slot whose current exercise is risky for `painArea` is
replaced by its safe substitute, and one explanation is pushed per
substitution, in slot order.  (The JS loop reads each slot before
overwriting that same slot, so the pass acts independently per slot.) -/
def substitutionStep (painArea : String) (exercises : List Exercise) :
    List Exercise × List Expl :=
  (exercises.map fun ex =>
     if isExerciseRisky ex painArea then getSafeSubstitution ex painArea else ex,
   exercises.filterMap fun ex =>
     if isExerciseRisky ex painArea then
       some (.injurySubstitution painArea ex.name (getSafeSubstitution ex painArea).name)
     else none)

/-- Step 1 of `generateDailyWorkout`: the outer `forEach` over
`dailyFeedback.painFlags`, threading the working exercise list and
accumulating explanations in push order. -/
def injuryStage (painFlags : List String) (exercises : List Exercise) :
    List Exercise × List Expl :=
  painFlags.foldl
    (fun acc painArea =>
      let step := substitutionStep painArea acc.1
      (step.1, acc.2 ++ step.2))
    (exercises, [])

/-- The body of the per-exercise `forEach` of step 3 of
`generateDailyWorkout` (lines 82-107): find the last performance by
exercise id; on a non-MAINTENANCE load adjustment apply the new weight
rounded to the nearest 2.5 and push an explanation; on MAINTENANCE carry
over the last-used weight verbatim. -/
def loadStep (lastPerformances : List ExercisePerformance) (currentEx : Exercise) :
    Exercise × List Expl :=
  match lastPerformances.find? (fun p => p.exerciseId == currentEx.id) with
  | none => (currentEx, [])
  | some lastPerf =>
    let adjustment := Autoregulator.adjustLoad lastPerf.weight lastPerf.rpe
      currentEx.rpeTarget (lastPerf.completedReps < (currentEx.reps : ℚ))
    if adjustment.adjustmentType ≠ "MAINTENANCE" then
      let newWeight : ℚ := (jsRound (adjustment.newWeight / (5/2)) : ℚ) * (5/2)
      ({ currentEx with weight := newWeight },
       [.load adjustment.adjustmentType lastPerf.rpe (newWeight - lastPerf.weight)])
    else
      ({ currentEx with weight := lastPerf.weight }, [])

/-- The JSON round-trip clone of line 48 (`JSON.parse(JSON.stringify(w))`):
the identity on the value of the workout (the `Date`-to-string conversion is
already absorbed by modelling `date` as a `String`). -/
def deepClone (w : Workout) : Workout := w

/-- Result record returned by `generateDailyWorkout`. -/
structure EngineResult where
  readinessScore : ℚ
  workout : Workout
  explanations : List Expl
deriving Repr, DecidableEq

def generateDailyWorkout (userProfile : User) (plannedWorkout : Workout)
    (dailyFeedback : Feedback) (lastPerformances : List ExercisePerformance) :
    EngineResult :=
  let adjustedWorkout := deepClone plannedWorkout
  -- 1. Safety check: pain/injury
  let step1 :=
    if 0 < dailyFeedback.painFlags.length then
      injuryStage dailyFeedback.painFlags adjustedWorkout.exercises
    else (adjustedWorkout.exercises, [])
  let adjustedWorkout := { adjustedWorkout with exercises := step1.1 }
  -- 2. Readiness check & volume adjustment
  let readiness := calculateReadiness dailyFeedback
  let volumeAdjustmentResult := Autoregulator.adjustVolume adjustedWorkout readiness
  let step2 :=
    if volumeAdjustmentResult.type ≠ "MAINTENANCE" then
      (volumeAdjustmentResult.workout,
       [Expl.volume volumeAdjustmentResult.type dailyFeedback.sleepQuality
          (if volumeAdjustmentResult.type = "DELOAD" then "50%" else "20%")])
    else (adjustedWorkout, [])
  let adjustedWorkout := step2.1
  -- 3. Load progression based on last performance
  let step3 :=
    if readiness ≥ 40 then
      (adjustedWorkout.exercises.map fun ex => (loadStep lastPerformances ex).1,
       adjustedWorkout.exercises.flatMap fun ex => (loadStep lastPerformances ex).2)
    else (adjustedWorkout.exercises, [])
  { readinessScore := readiness
    workout := { adjustedWorkout with exercises := step3.1 }
    explanations := step1.2 ++ step2.2 ++ step3.2 }

end TrainingEngine

/-! ## Raw (unvalidated) feedback

The transport adapter may hand the engine a feedback object with fields
missing; in JS a missing field reads as `undefined`, and every numeric
comparison or strict equality against `undefined` is false.  The model
below replays `calculateReadiness` on such a raw record with exactly those
semantics, to settle what the engine does on malformed input (the source
contains no validation code at all). -/

structure RawFeedback where
  sleepQuality : Option ℚ
  soreness : Option ℚ
  stressLevel : Option String
  painFlags : Option (List String)
deriving Repr, DecidableEq

/-- JS `x <= c` where `x` may be `undefined` (then the comparison is false). -/
def undefLe (x : Option ℚ) (c : ℚ) : Bool :=
  match x with
  | some v => v ≤ c
  | none => false

/-- JS `x >= c` where `x` may be `undefined` (then the comparison is false). -/
def undefGe (x : Option ℚ) (c : ℚ) : Bool :=
  match x with
  | some v => c ≤ v
  | none => false

/-- JS `x === c` for a numeric constant, where `x` may be `undefined`. -/
def undefEq (x : Option ℚ) (c : ℚ) : Bool :=
  match x with
  | some v => v = c
  | none => false

/-- JS `x === s` for a string constant, where `x` may be `undefined`. -/
def undefEqStr (x : Option String) (s : String) : Bool :=
  match x with
  | some v => v = s
  | none => false

namespace TrainingEngine

/-- Replay of `calculateReadiness` on a possibly-incomplete feedback
record, with JS `undefined` comparison semantics.  On a fully-present
record this coincides with `calculateReadiness`. -/
def calculateReadinessRaw (feedback : RawFeedback) : ℚ :=
  let score := baselineReadiness
  let score := if undefLe feedback.sleepQuality 4 then score - 20
               else if undefLe feedback.sleepQuality 6 then score - 10
               else if undefGe feedback.sleepQuality 8 then score + 5
               else score
  let score := if undefGe feedback.soreness 4 then score - 10 else score
  let score := if undefEq feedback.soreness 5 then score - 20 else score
  let score := if undefEqStr feedback.stressLevel "High" then score - 15 else score
  max 0 (min 100 score)

end TrainingEngine

/-! ## Heap model of `generateDailyWorkout`

The no-mutation claim about `plannedWorkout` is a statement about the JS
heap: the caller retains a reference to the planned workout object and to
each exercise object inside it, and the engine mutates objects in place
(`ex.sets -= 1`, `currentEx.weight = ...`,
`adjustedWorkout.exercises[index] = sub`).  To settle it the pipeline is
re-embedded over an explicit object store: exercise records and workout
records live in heap cells addressed by natural numbers, every in-place JS
assignment becomes a store write at the corresponding address, and
`JSON.parse(JSON.stringify(...))` becomes allocation of fresh cells.  The
theorem then states that every cell that existed before the call — in
particular the planned workout object and all exercise objects it
references — holds exactly its old value after the call. -/

namespace HeapModel

/-- A workout object on the heap: its `exercises` field holds references
(cell addresses) to exercise objects. -/
structure WorkoutObj where
  id : String
  userId : String
  name : String
  exercises : List ℕ
  date : String
deriving Repr, DecidableEq, Inhabited

/-- The object store: exercise cells and workout cells, addressed by
position.  Allocation appends; a write replaces one cell. -/
structure Heap where
  exCells : List Exercise
  wCells : List WorkoutObj
deriving Repr, DecidableEq, Inhabited

def Heap.readEx (h : Heap) (r : ℕ) : Exercise := h.exCells.getD r default

def Heap.writeEx (h : Heap) (r : ℕ) (e : Exercise) : Heap :=
  { h with exCells := h.exCells.set r e }

def Heap.allocEx (h : Heap) (e : Exercise) : Heap × ℕ :=
  ({ h with exCells := h.exCells ++ [e] }, h.exCells.length)

def Heap.readW (h : Heap) (r : ℕ) : WorkoutObj := h.wCells.getD r default

def Heap.writeW (h : Heap) (r : ℕ) (wo : WorkoutObj) : Heap :=
  { h with wCells := h.wCells.set r wo }

def Heap.allocW (h : Heap) (wo : WorkoutObj) : Heap × ℕ :=
  ({ h with wCells := h.wCells ++ [wo] }, h.wCells.length)

/-- Line 48, `JSON.parse(JSON.stringify(plannedWorkout))`: allocate a fresh
cell holding a copy of every exercise of the workout, then a fresh workout
object referencing the copies.  Nothing is shared with the original. -/
def cloneWorkout (h : Heap) (wr : ℕ) : Heap × ℕ :=
  let wo := h.readW wr
  let step := wo.exercises.foldl
    (fun (acc : Heap × List ℕ) r =>
      let alloc := acc.1.allocEx (acc.1.readEx r)
      (alloc.1, acc.2 ++ [alloc.2]))
    (h, [])
  step.1.allocW { wo with exercises := step.2 }

/-- Lines 53-64, the inner `forEach` for one pain flag: visit each slot of
the working workout in order; when the exercise currently referenced there
is risky, allocate the substitute object and overwrite that slot of the
`exercises` array with the new reference. -/
def substitutionPassH (p : String) (h : Heap) (wr : ℕ) : Heap :=
  (List.range (h.readW wr).exercises.length).foldl
    (fun hh i =>
      let refs := (hh.readW wr).exercises
      let ex := hh.readEx (refs.getD i 0)
      if TrainingEngine.isExerciseRisky ex p then
        let alloc := hh.allocEx (TrainingEngine.getSafeSubstitution ex p)
        alloc.1.writeW wr
          { alloc.1.readW wr with exercises := (alloc.1.readW wr).exercises.set i alloc.2 }
      else hh)
    h

/-- Heap version of `Autoregulator.adjustVolume`: clone the working
workout, then mutate the `sets` field of the cloned exercise cells in
place according to the readiness tier. -/
def adjustVolumeH (h : Heap) (wr : ℕ) (readinessScore : ℚ) : Heap × ℕ × String :=
  let c := cloneWorkout h wr
  if readinessScore < 40 then
    (((c.1.readW c.2).exercises).foldl
       (fun hh er => hh.writeEx er { hh.readEx er with sets := max 1 ((hh.readEx er).sets / 2) })
       c.1,
     c.2, "DELOAD")
  else if readinessScore < 60 then
    (((c.1.readW c.2).exercises).foldl
       (fun hh er =>
         if 1 < (hh.readEx er).sets then
           hh.writeEx er { hh.readEx er with sets := (hh.readEx er).sets - 1 }
         else hh)
       c.1,
     c.2, "VOLUME_REDUCTION")
  else (c.1, c.2, "MAINTENANCE")

/-- Lines 82-107, the load-progression `forEach`: for each exercise of the
working workout, on a matching performance record overwrite the `weight`
field of that exercise cell in place (rounded on a change, carried over
verbatim on maintenance). -/
def loadPassH (perfs : List ExercisePerformance) (h : Heap) (wr : ℕ) : Heap :=
  ((h.readW wr).exercises).foldl
    (fun hh er =>
      let ex := hh.readEx er
      match perfs.find? (fun p => p.exerciseId == ex.id) with
      | none => hh
      | some lastPerf =>
        let adjustment := Autoregulator.adjustLoad lastPerf.weight lastPerf.rpe
          ex.rpeTarget (lastPerf.completedReps < (ex.reps : ℚ))
        if adjustment.adjustmentType ≠ "MAINTENANCE" then
          hh.writeEx er
            { ex with weight := (jsRound (adjustment.newWeight / (5/2)) : ℚ) * (5/2) }
        else hh.writeEx er { ex with weight := lastPerf.weight })
    h

/-- Heap version of `generateDailyWorkout`: the same pipeline as the pure
model, with every in-place JS mutation performed on the store.  Returns
the final heap, the readiness score and the reference to the adjusted
workout.  (Explanation strings are pure values never written to the heap,
so they are irrelevant to the mutation claim and not accumulated here.) -/
def generateDailyWorkoutH (h : Heap) (userProfile : User) (plannedRef : ℕ)
    (dailyFeedback : Feedback) (lastPerformances : List ExercisePerformance) :
    Heap × ℚ × ℕ :=
  let c := cloneWorkout h plannedRef
  let adjRef := c.2
  let h2 := if 0 < dailyFeedback.painFlags.length then
      dailyFeedback.painFlags.foldl (fun hh p => substitutionPassH p hh adjRef) c.1
    else c.1
  let readiness := TrainingEngine.calculateReadiness dailyFeedback
  let v := adjustVolumeH h2 adjRef readiness
  let workRef := if v.2.2 ≠ "MAINTENANCE" then v.2.1 else adjRef
  let h4 := if readiness ≥ 40 then loadPassH lastPerformances v.1 workRef else v.1
  (h4, readiness, workRef)

/-- Extension order on heaps: every cell of the first heap still holds its
old value in the second (new cells may have been allocated, and allocated
cells may have been overwritten). -/
def ExtendsFrom (h0 h : Heap) : Prop :=
  h0.exCells.length ≤ h.exCells.length ∧
  h.exCells.take h0.exCells.length = h0.exCells ∧
  h0.wCells.length ≤ h.wCells.length ∧
  h.wCells.take h0.wCells.length = h0.wCells

/-- Invariant for the working workout reference: it was allocated after
the base heap, it is a valid address, and every exercise reference in its
array points past the base heap. -/
def FreshWorkout (h0 h : Heap) (wr : ℕ) : Prop :=
  h0.wCells.length ≤ wr ∧ wr < h.wCells.length ∧
  ∀ r ∈ (h.readW wr).exercises, h0.exCells.length ≤ r

end HeapModel

/-! ## Concrete fixtures used by witnesses and counterexamples -/

def sampleUser : User :=
  { id := "u1", name := "Test User", trainingMaxes := [], injuryHistory := [] }

def squatExercise : Exercise :=
  { id := "sq", name := "Barbell Squat", type := "compound", muscleGroups := ["quads"],
    weight := 100, sets := 3, reps := 5, rpeTarget := 8 }

def rowExercise : Exercise :=
  { id := "row", name := "Barbell Row", type := "compound", muscleGroups := ["back"],
    weight := 60, sets := 3, reps := 10, rpeTarget := 8 }

/-- Plan with a single squat slot (mirrors scenario C of test_scenarios.js). -/
def squatPlan : Workout :=
  { id := "w1", userId := "u1", name := "Leg Day", exercises := [squatExercise],
    date := "2024-01-01" }

/-- Plan with a single row slot. -/
def rowPlan : Workout :=
  { id := "w2", userId := "u1", name := "Pull Day", exercises := [rowExercise],
    date := "2024-01-02" }

/-- A prior-session performance record for the row, at RPE 7 with the
target reps completed. -/
def rowPerformance : ExercisePerformance :=
  { exerciseId := "row", weight := 100, completedReps := 10, completedSets := 3, rpe := 7 }

/-- A workout with no exercises. -/
def emptyPlan : Workout :=
  { id := "w3", userId := "u1", name := "Empty", exercises := [], date := "2024-01-03" }

/-! ## Supporting lemmas -/

namespace TrainingEngine

theorem injuryStage_fold_fst :
    ∀ (flags : List String) (exs : List Exercise) (es : List Expl),
      (flags.foldl
          (fun acc painArea =>
            let step := substitutionStep painArea acc.1
            (step.1, acc.2 ++ step.2))
          (exs, es)).1
        = flags.foldl (fun l painArea => (substitutionStep painArea l).1) exs := by
  intro flags
  induction flags with
  | nil => intro exs es; rfl
  | cons p ps ih => intro exs es; simpa using ih _ _

theorem injuryStage_fst (flags : List String) (exs : List Exercise) :
    (injuryStage flags exs).1
      = flags.foldl (fun l painArea => (substitutionStep painArea l).1) exs :=
  injuryStage_fold_fst flags exs []

theorem substitution_fold_nil (flags : List String) :
    flags.foldl (fun l painArea => (substitutionStep painArea l).1) [] = [] := by
  induction flags with
  | nil => rfl
  | cons p ps ih => simpa [substitutionStep] using ih

theorem adjustVolume_exercises_nil (w : Workout) (r : ℚ) (hw : w.exercises = []) :
    (Autoregulator.adjustVolume w r).workout.exercises = [] := by
  unfold Autoregulator.adjustVolume
  split
  · simp [hw]
  split <;> simp [hw]

/-- Characterization of the exercise list produced by the full pipeline,
stage by stage (safety substitution, then volume, then load). -/
theorem generateDailyWorkout_exercises (u : User) (w : Workout) (fb : Feedback)
    (perfs : List ExercisePerformance) :
    (generateDailyWorkout u w fb perfs).workout.exercises =
      (let exs1 := if 0 < fb.painFlags.length
                   then (injuryStage fb.painFlags w.exercises).1 else w.exercises
       let readiness := calculateReadiness fb
       let vol := Autoregulator.adjustVolume { w with exercises := exs1 } readiness
       let exs2 := if vol.type ≠ "MAINTENANCE" then vol.workout.exercises else exs1
       if readiness ≥ 40 then exs2.map (fun ex => (loadStep perfs ex).1) else exs2) := by
  unfold generateDailyWorkout deepClone
  dsimp only
  split
  · split
    · split <;> rfl
    · split <;> rfl
  · split
    · split <;> rfl
    · split <;> rfl

end TrainingEngine

theorem floor_half_nat (n : ℕ) : ⌊(n : ℚ) * (5/10)⌋₊ = n / 2 := by
  have h : (n : ℚ) * (5/10) = (n : ℚ) / ((2 : ℕ) : ℚ) := by push_cast; ring
  rw [h, Nat.floor_div_nat]
  simp

theorem charsInfixOf_iff (pat : List Char) :
    ∀ l : List Char, charsInfixOf pat l = true ↔ pat <:+: l := by
  intro l
  induction l with
  | nil => simp [charsInfixOf, List.isEmpty_iff]
  | cons c cs ih => simp [charsInfixOf, ih, List.infix_cons_iff]

theorem jsIncludes_iff (s pat : String) : jsIncludes s pat = true ↔ pat.data <:+: s.data :=
  charsInfixOf_iff pat.data s.data

/-- Lower-casing the searched string preserves an already-lower-case
substring occurrence. -/
theorem jsIncludes_toLower (p q : String) (hq : q.data.map Char.toLower = q.data)
    (h : jsIncludes p q = true) : jsIncludes (jsToLower p) q = true := by
  rw [jsIncludes_iff] at h
  rw [jsIncludes, jsToLower]
  rw [charsInfixOf_iff]
  show q.data <:+: p.data.map Char.toLower
  rw [← hq]
  exact List.IsInfix.map _ h

namespace TrainingEngine

theorem isExerciseRisky_of_knee (ex : Exercise) (p : String)
    (hp : jsIncludes (jsToLower p) "knee" = true)
    (hname : ["Squat", "Lunge", "Leg Press"].any
        (fun riskyName => jsIncludes ex.name riskyName) = true) :
    isExerciseRisky ex p = true := by
  unfold isExerciseRisky riskMap
  simp only [List.foldl]
  rw [hp, hname]
  simp

theorem isExerciseRisky_of_back (ex : Exercise) (p : String)
    (hp : jsIncludes (jsToLower p) "back" = true)
    (hname : ["Deadlift", "Row", "Good Morning"].any
        (fun riskyName => jsIncludes ex.name riskyName) = true) :
    isExerciseRisky ex p = true := by
  unfold isExerciseRisky riskMap
  simp only [List.foldl]
  rw [hp, hname]
  simp

/-- An exercise whose name matches no risky name of any body-part key is
never flagged as risky, for any pain area. -/
theorem isExerciseRisky_of_no_risky_name (ex : Exercise) (p : String)
    (hname : ∀ key riskyList, (key, riskyList) ∈ riskMap →
      riskyList.any (fun riskyName => jsIncludes ex.name riskyName) = false) :
    isExerciseRisky ex p = false := by
  have h1 := hname "knee" ["Squat", "Lunge", "Leg Press"] (by simp [riskMap])
  have h2 := hname "shoulder" ["Bench Press", "Overhead Press", "Dip"] (by simp [riskMap])
  have h3 := hname "back" ["Deadlift", "Row", "Good Morning"] (by simp [riskMap])
  unfold isExerciseRisky riskMap
  simp only [List.foldl]
  rw [h1, h2, h3]
  simp

theorem loadStep_fst_of_find_none (perfs : List ExercisePerformance) (ex : Exercise)
    (h : perfs.find? (fun p => p.exerciseId == ex.id) = none) :
    (loadStep perfs ex).1 = ex := by
  unfold loadStep
  rw [h]

/-- Volume adjustment changes only set counts: name, weight and id of
every slot pass through unchanged. -/
theorem adjustVolume_slot_track (w : Workout) (r : ℚ) (i : ℕ) :
    ((Autoregulator.adjustVolume w r).workout.exercises)[i]?.map
        (fun e => (e.name, e.weight, e.id)) =
      (w.exercises[i]?).map (fun e => (e.name, e.weight, e.id)) := by
  unfold Autoregulator.adjustVolume
  split_ifs with h1 h2 <;> cases hx : w.exercises[i]? <;>
    simp [List.getElem?_map, hx]
  all_goals (split <;> simp)

end TrainingEngine

/-! ## Claims -/

open TrainingEngine Autoregulator

/-- C1 counterexample: the engine performs no input validation.  A feedback
record with every field missing evaluates to the baseline readiness of 80
(every JS comparison against `undefined` is false), an out-of-range
sleepQuality of 100 is processed by the ordinary bucket logic (yielding
85), and a call with a workout that has no exercises completes normally,
returning an ordinary result — no error is raised, contradicting the
claimed fail-fast policy. -/
theorem c1_counterexample :
    calculateReadinessRaw ⟨none, none, none, some []⟩ = 80 ∧
    calculateReadiness ⟨100, 3, "Low", []⟩ = 85 ∧
    (generateDailyWorkout sampleUser emptyPlan ⟨3, 2, "Low", []⟩ []).workout.exercises = []
      ∧
    (generateDailyWorkout sampleUser emptyPlan ⟨3, 2, "Low", []⟩ []).readinessScore = 60 := by
  refine ⟨?_, ?_, ?_, ?_⟩
  · simp [calculateReadinessRaw, baselineReadiness, undefLe, undefGe, undefEq, undefEqStr]
    norm_num [min_def, max_def]
  · simp [calculateReadiness, baselineReadiness]
    norm_num [min_def, max_def]
  · simp [generateDailyWorkout, deepClone, emptyPlan, injuryStage, substitutionStep,
          calculateReadiness, baselineReadiness, adjustVolume, loadStep]
    norm_num [min_def, max_def]
  · simp [generateDailyWorkout, deepClone, emptyPlan, injuryStage, substitutionStep,
          calculateReadiness, baselineReadiness, adjustVolume, loadStep]
    norm_num [min_def, max_def]

/-- C1 amended: `generateDailyWorkout` does not validate its input.  A call
whose planned workout has no exercises completes normally with an empty
adjusted workout and the ordinary readiness score, and a feedback record
with all fields missing is silently scored at the baseline of 80 rather
than rejected (the source contains no validation branch; no designed error
is ever produced for these inputs). -/
theorem c1_no_input_validation (u : User) (w : Workout) (fb : Feedback)
    (perfs : List ExercisePerformance) (hw : w.exercises = []) :
    (generateDailyWorkout u w fb perfs).workout.exercises = [] ∧
    (generateDailyWorkout u w fb perfs).readinessScore = calculateReadiness fb ∧
    calculateReadinessRaw ⟨none, none, none, some []⟩ = baselineReadiness := by
  refine ⟨?_, rfl, ?_⟩
  · have hstage1 : (if 0 < fb.painFlags.length
        then (injuryStage fb.painFlags w.exercises).1 else w.exercises) = [] := by
      split
      · rw [injuryStage_fst, hw]; exact substitution_fold_nil _
      · exact hw
    have hvol : ∀ r, (Autoregulator.adjustVolume
        { w with exercises := ([] : List Exercise) } r).workout.exercises = [] :=
      fun r => adjustVolume_exercises_nil _ r rfl
    rw [generateDailyWorkout_exercises]
    simp only [hstage1]
    simp [hvol]
  · simp [calculateReadinessRaw, baselineReadiness, undefLe, undefGe, undefEq, undefEqStr]
    norm_num [min_def, max_def]

/-- C2 counterexample: on feedback with sleepQuality 5, soreness 3 and
stressLevel High, `calculateReadiness` returns 55, not the claimed 45
(sleepQuality 5 falls in the `<= 6` bucket, a -10 penalty, not -20). -/
theorem c2_counterexample :
    calculateReadiness ⟨5, 3, "High", []⟩ = 55 ∧ (55 : ℚ) ≠ 45 := by
  constructor
  · simp [calculateReadiness, baselineReadiness]
    norm_num [min_def, max_def]
  · norm_num

/-- C2 amended: `calculateReadiness` applied to feedback with sleepQuality
5, soreness 3 and stressLevel High returns exactly 55, computed as
baseline 80 minus a sleep penalty of 10 (the `<= 6` bucket), minus 0 for
soreness, minus 15 for stress. -/
theorem c2_readiness_example :
    calculateReadiness ⟨5, 3, "High", []⟩ = 55 ∧
    baselineReadiness - 10 - 0 - 15 = 55 := by
  constructor
  · simp [calculateReadiness, baselineReadiness]
    norm_num [min_def, max_def]
  · norm_num [baselineReadiness]

/-- C5: for every feedback record, the value returned by
`calculateReadiness` lies between 0 and 100 inclusive (the final clamp
`Math.max(0, Math.min(100, score))` guarantees it). -/
theorem c5_readiness_bounded (feedback : Feedback) :
    0 ≤ calculateReadiness feedback ∧ calculateReadiness feedback ≤ 100 := by
  unfold calculateReadiness
  exact ⟨le_max_left _ _, max_le (by norm_num) (min_le_left _ _)⟩

/-- C3 counterexample: with plan slot Barbell Row at 60 and pain flag
"back", the engine substitutes Chest Supported Row at weight 60 x 0.7 = 42
— an adjusted weight (it differs from the planned 60) that is not an
integer multiple of 2.5, because the injury-substitution weight is never
rounded. -/
theorem c3_counterexample :
    (generateDailyWorkout sampleUser rowPlan ⟨8, 2, "Low", ["back"]⟩ []).workout.exercises.map
        (fun ex => ex.weight) = [42] ∧
    rowPlan.exercises.map (fun ex => ex.weight) = [60] ∧
    ¬ ∃ k : ℤ, (42 : ℚ) = (k : ℚ) * (5/2) := by
  refine ⟨?_, ?_, ?_⟩
  · simp [generateDailyWorkout, deepClone, rowPlan, rowExercise, injuryStage, substitutionStep,
          isExerciseRisky, riskMap, getSafeSubstitution, calculateReadiness, baselineReadiness,
          adjustVolume, loadStep, jsIncludes, jsToLower, charsInfixOf]
    norm_num [min_def, max_def]
  · simp [rowPlan, rowExercise]
  · rintro ⟨k, hk⟩
    have h84 : (84 : ℚ) = (k : ℚ) * 5 := by linarith
    have h84i : (84 : ℤ) = k * 5 := by exact_mod_cast h84
    omega

/-- C3 amended: only the load-autoregulation stage rounds: whenever the
per-exercise load step finds a matching performance record and the load
adjustment is not MAINTENANCE, the weight written into the slot is an
integer multiple of 2.5.  (A MAINTENANCE carry-over copies the last-used
weight verbatim, and injury substitutes — including the back-pain
substitute at 0.7 x the original weight — are not rounded, as the
counterexample shows.) -/
theorem c3_changed_load_weights_are_multiples
    (lastPerformances : List ExercisePerformance) (currentEx : Exercise)
    (lastPerf : ExercisePerformance)
    (hfind : lastPerformances.find? (fun p => p.exerciseId == currentEx.id) = some lastPerf)
    (hchange : (Autoregulator.adjustLoad lastPerf.weight lastPerf.rpe currentEx.rpeTarget
        (lastPerf.completedReps < (currentEx.reps : ℚ))).adjustmentType ≠ "MAINTENANCE") :
    ∃ k : ℤ, (loadStep lastPerformances currentEx).1.weight = (k : ℚ) * (5/2) := by
  unfold loadStep
  rw [hfind]
  dsimp only
  rw [if_pos hchange]
  exact ⟨jsRound _, rfl⟩

/-- C3 witness: the row exercise with a matching RPE-7 performance at 100
triggers a LOAD_INCREASE, and the resulting weight is a multiple of 2.5. -/
theorem c3_witness :
    ∃ k : ℤ, (loadStep [rowPerformance] rowExercise).1.weight = (k : ℚ) * (5/2) :=
  c3_changed_load_weights_are_multiples [rowPerformance] rowExercise rowPerformance
    (by simp [rowPerformance, rowExercise])
    (by simp [Autoregulator.adjustLoad, rowPerformance, rowExercise]; norm_num; decide)

/-- C7: whenever missedReps is true, `adjustLoad` returns
currentWeight x 0.95 with type LOAD_DECREASE for every currentWeight, rpe
and targetRpe — the missed-reps rule short-circuits before the RPE rules —
and in particular adjustLoad(100, 8, 8, missedReps=true) returns 95 and
LOAD_DECREASE even though rpe equals targetRpe. -/
theorem c7_missed_reps_short_circuit :
    (∀ currentWeight rpe targetRpe : ℚ,
        adjustLoad currentWeight rpe targetRpe true =
          { newWeight := currentWeight * (95/100), adjustmentType := "LOAD_DECREASE" }) ∧
    adjustLoad 100 8 8 true = { newWeight := 95, adjustmentType := "LOAD_DECREASE" } := by
  constructor
  · intro currentWeight rpe targetRpe; rfl
  · simp [adjustLoad]; norm_num

/-- C8: `adjustVolume` obeys exactly three tiers — readiness below 40
halves every set count (floored, never below 1) with type DELOAD;
readiness in [40,60) removes one set from every exercise with more than
one set with type VOLUME_REDUCTION; readiness 60 and above changes
nothing with type MAINTENANCE — and consequently a workout whose
exercises all have at least one set keeps at least one set everywhere. -/
theorem c8_adjust_volume_tiers (w : Workout) (r : ℚ) :
    (adjustVolume w r).type =
      (if r < 40 then "DELOAD" else if r < 60 then "VOLUME_REDUCTION" else "MAINTENANCE") ∧
    (adjustVolume w r).workout.exercises =
      (if r < 40 then
        w.exercises.map (fun ex => { ex with sets := max 1 ⌊(ex.sets : ℚ) * (5/10)⌋₊ })
      else if r < 60 then
        w.exercises.map (fun ex => if 1 < ex.sets then { ex with sets := ex.sets - 1 } else ex)
      else w.exercises) ∧
    ((∀ ex ∈ w.exercises, 1 ≤ ex.sets) →
      ∀ ex ∈ (adjustVolume w r).workout.exercises, 1 ≤ ex.sets) := by
  refine ⟨?_, ?_, ?_⟩
  · unfold adjustVolume; split_ifs <;> rfl
  · unfold adjustVolume; split_ifs <;> simp [floor_half_nat]
  · intro hsets ex hex
    unfold adjustVolume at hex
    split_ifs at hex with h1 h2
    · simp only [List.mem_map] at hex
      obtain ⟨e, _, rfl⟩ := hex
      exact le_max_left _ _
    · simp only [List.mem_map] at hex
      obtain ⟨e, he, rfl⟩ := hex
      by_cases hgt : 1 < e.sets
      · simp only [hgt, if_true]; omega
      · simp only [hgt, if_false]; exact hsets e he
    · exact hsets ex hex

/-- C8 witness: a plan of 3-set exercises at readiness 50 still has at
least one set per exercise after volume adjustment. -/
theorem c8_witness :
    (∀ ex ∈ squatPlan.exercises, 1 ≤ ex.sets) ∧
    (∀ ex ∈ (adjustVolume squatPlan 50).workout.exercises, 1 ≤ ex.sets) :=
  ⟨by simp [squatPlan, squatExercise],
   (c8_adjust_volume_tiers squatPlan 50).2.2 (by simp [squatPlan, squatExercise])⟩

/-- C9 counterexample: the pain flag "KNEE" is recognized as risky for the
squat (the risk check lower-cases the flag) but matches no case-sensitive
branch of `getSafeSubstitution`, so the slot receives the rest placeholder
whose id is the constant "rest" — not the original id "sq" with a suffix
appended ("sq" is not even a prefix of "rest"). -/
theorem c9_counterexample :
    (generateDailyWorkout sampleUser squatPlan ⟨8, 2, "Low", ["KNEE"]⟩ []).workout.exercises.map
        (fun ex => ex.id) = ["rest"] ∧
    "sq".data.isPrefixOf "rest".data = false := by
  constructor
  · have hlow : jsToLower "KNEE" = "knee" := by decide
    simp [generateDailyWorkout, deepClone, squatPlan, squatExercise, injuryStage,
          substitutionStep, isExerciseRisky, riskMap, getSafeSubstitution, calculateReadiness,
          baselineReadiness, adjustVolume, loadStep, hlow, jsIncludes, jsToLower, charsInfixOf]
    norm_num [min_def, max_def]
  · decide

/-- C9 amended: substitutes produced for a pain flag containing (case
sensitively) "knee", "shoulder" or "back" carry the original exercise id
with the suffix "_sub" appended — an id distinct from the original, so an
id-keyed lookup over performance records keyed to the original ids finds
nothing for the substituted slot — but the rest placeholder for any other
flag carries the constant id "rest", not a derived id. -/
theorem c9_substitute_identifiers (exercise : Exercise) (painArea : String) :
    (getSafeSubstitution exercise painArea).id =
      (if jsIncludes painArea "knee" || jsIncludes painArea "shoulder"
          || jsIncludes painArea "back"
       then exercise.id ++ "_sub" else "rest") ∧
    exercise.id ++ "_sub" ≠ exercise.id ∧
    (∀ lastPerformances : List ExercisePerformance,
      (∀ p ∈ lastPerformances, p.exerciseId = exercise.id) →
      lastPerformances.find? (fun p => p.exerciseId == exercise.id ++ "_sub") = none) := by
  have hne : exercise.id ++ "_sub" ≠ exercise.id := by
    intro h
    have hlen := congrArg String.length h
    rw [String.length_append] at hlen
    have h4 : "_sub".length = 4 := by decide
    omega
  refine ⟨?_, hne, ?_⟩
  · cases hk : jsIncludes painArea "knee" <;>
      cases hs : jsIncludes painArea "shoulder" <;>
        cases hb : jsIncludes painArea "back" <;>
          simp [getSafeSubstitution, hk, hs, hb]
  · intro lastPerformances hall
    rw [List.find?_eq_none]
    intro p hp
    rw [hall p hp]
    simp [beq_iff_eq]
    exact fun h => hne h.symm

/-- C9 witness: a performance history keyed to the original row id has no
record matching the derived id of its substitute. -/
theorem c9_witness :
    List.find? (fun p => p.exerciseId == rowExercise.id ++ "_sub") [rowPerformance] = none :=
  (c9_substitute_identifiers rowExercise "back").2.2 [rowPerformance]
    (by simp [rowPerformance, rowExercise])

/-- C6 counterexample: the pain flag "KNEE" case-insensitively contains
"knee", yet the squat slot is replaced by the rest placeholder
"Rest (KNEE pain)", not by "Glute Bridge": the risk check lower-cases the
flag but the substitution lookup is case-sensitive. -/
theorem c6_counterexample :
    (generateDailyWorkout sampleUser squatPlan ⟨8, 2, "Low", ["KNEE"]⟩ []).workout.exercises.map
        (fun ex => ex.name) = ["Rest (KNEE pain)"] ∧
    "Rest (KNEE pain)" ≠ "Glute Bridge" := by
  constructor
  · have hlow : jsToLower "KNEE" = "knee" := by decide
    simp [generateDailyWorkout, deepClone, squatPlan, squatExercise, injuryStage,
          substitutionStep, isExerciseRisky, riskMap, getSafeSubstitution, calculateReadiness,
          baselineReadiness, adjustVolume, loadStep, hlow, jsIncludes, jsToLower, charsInfixOf]
    norm_num [min_def, max_def]
  · decide

/-- C6 amended: for every pain flag that contains the lower-case substring
"knee" (the substitution lookup is case-sensitive, so e.g. "left_knee"
qualifies while "KNEE" falls to the rest placeholder), the substitution
pass replaces every slot whose exercise name contains "Squat", "Lunge" or
"Leg Press" with Glute Bridge at weight 0, 3 sets and 15 reps (id derived
with the "_sub" suffix); a slot whose name matches no risky name of any
body part is not altered by the rule; and in particular a plan containing
"Barbell Squat" with pain flag "left_knee" yields Glute Bridge (0, 3x15)
in that slot end to end. -/
theorem c6_knee_substitution (exercises : List Exercise) (p : String) (i : ℕ)
    (hp : jsIncludes p "knee" = true)
    (hi : i < exercises.length)
    (hname : jsIncludes exercises[i].name "Squat" = true ∨
             jsIncludes exercises[i].name "Lunge" = true ∨
             jsIncludes exercises[i].name "Leg Press" = true) :
    ((substitutionStep p exercises).1)[i]? =
      some { id := exercises[i].id ++ "_sub", name := "Glute Bridge", type := "",
             muscleGroups := [], weight := 0, sets := 3, reps := 15, rpeTarget := 8 } ∧
    (∀ j : ℕ, j < exercises.length →
      (∀ key riskyList, (key, riskyList) ∈ riskMap →
        riskyList.any (fun riskyName => jsIncludes (exercises.getD j default).name riskyName)
          = false) →
      ((substitutionStep p exercises).1)[j]? = some (exercises.getD j default)) ∧
    (generateDailyWorkout sampleUser squatPlan ⟨7, 2, "Low", ["left_knee"]⟩ []).workout.exercises.map
        (fun ex => (ex.name, ex.weight, ex.sets, ex.reps)) = [("Glute Bridge", 0, 3, 15)] := by
  refine ⟨?_, ?_, ?_⟩
  · have hrisky : isExerciseRisky exercises[i] p = true :=
      isExerciseRisky_of_knee _ p (jsIncludes_toLower p "knee" (by decide) hp)
        (by rcases hname with h | h | h <;> simp [h])
    have hsub : getSafeSubstitution exercises[i] p =
        { id := exercises[i].id ++ "_sub", name := "Glute Bridge", type := "",
          muscleGroups := [], weight := 0, sets := 3, reps := 15, rpeTarget := 8 } := by
      unfold getSafeSubstitution
      rw [hp]
      simp
    simp [substitutionStep, List.getElem?_map, List.getElem?_eq_getElem hi, hrisky, hsub]
  · intro j hj hnames
    have hrisky : isExerciseRisky (exercises.getD j default) p = false :=
      isExerciseRisky_of_no_risky_name _ p hnames
    have hget : exercises[j]? = some (exercises.getD j default) := by
      rw [List.getD_eq_getElem?_getD, List.getElem?_eq_getElem hj]
      rfl
    simp only [substitutionStep, List.getElem?_map, hget, Option.map_some']
    rw [hrisky]
    simp
  · have hlow : jsToLower "left_knee" = "left_knee" := by decide
    simp [generateDailyWorkout, deepClone, squatPlan, squatExercise, injuryStage,
          substitutionStep, isExerciseRisky, riskMap, getSafeSubstitution, calculateReadiness,
          baselineReadiness, adjustVolume, loadStep, hlow, jsIncludes, jsToLower, charsInfixOf]
    norm_num [min_def, max_def]

/-- C6 witness: the squat plan with flag "left_knee" has its (only) slot
replaced by Glute Bridge with the derived id. -/
theorem c6_witness :
    ((substitutionStep "left_knee" [squatExercise]).1)[0]? =
      some { id := "sq" ++ "_sub", name := "Glute Bridge", type := "",
             muscleGroups := [], weight := 0, sets := 3, reps := 15, rpeTarget := 8 } :=
  (c6_knee_substitution [squatExercise] "left_knee" 0 (by decide) (by simp)
    (Or.inl (by decide))).1

/-- C10: the back-pain substitute "Chest Supported Row" itself contains
"Row" and so matches the back risk list again; with pain flags
["back", "back"] a slot whose name contains "Row" is substituted twice,
ending as "Chest Supported Row" with weight 0.7 x 0.7 x the original and
id equal to the original id with "_sub" appended twice (provided no
performance record carries that doubly-derived id, so the load stage
leaves the slot alone; the volume stage only touches set counts). -/
theorem c10_double_back_substitution (u : User) (w : Workout) (fb : Feedback)
    (perfs : List ExercisePerformance) (i : ℕ)
    (hflags : fb.painFlags = ["back", "back"])
    (hi : i < w.exercises.length)
    (hname : jsIncludes (w.exercises[i]).name "Row" = true)
    (hperf : ∀ p ∈ perfs, p.exerciseId ≠ (w.exercises[i]).id ++ "_sub" ++ "_sub") :
    ((generateDailyWorkout u w fb perfs).workout.exercises)[i]?.map
        (fun ex => (ex.name, ex.weight, ex.id)) =
      some ("Chest Supported Row", (w.exercises[i]).weight * (7/10) * (7/10),
            (w.exercises[i]).id ++ "_sub" ++ "_sub") := by
  have hsubBack : ∀ ex : Exercise, getSafeSubstitution ex "back" =
      { id := ex.id ++ "_sub", name := "Chest Supported Row", type := "",
        muscleGroups := [], weight := ex.weight * (7/10), sets := 3, reps := 10,
        rpeTarget := 8 } := by
    intro ex
    unfold getSafeSubstitution
    rw [show jsIncludes "back" "knee" = false from by decide,
        show jsIncludes "back" "shoulder" = false from by decide,
        show jsIncludes "back" "back" = true from by decide]
    simp
  have hr1 : isExerciseRisky (w.exercises[i]) "back" = true :=
    isExerciseRisky_of_back _ _ (by decide)
      (by simp only [List.any_eq_true]; exact ⟨"Row", by simp, hname⟩)
  have hr2 : isExerciseRisky
      { id := (w.exercises[i]).id ++ "_sub", name := "Chest Supported Row", type := "",
        muscleGroups := [], weight := (w.exercises[i]).weight * (7/10), sets := 3,
        reps := 10, rpeTarget := 8 } "back" = true :=
    isExerciseRisky_of_back _ _ (by decide)
      (by
        simp only [List.any_eq_true]
        exact ⟨"Row", by simp, show jsIncludes "Chest Supported Row" "Row" = true by decide⟩)
  have hslot2 :
      ((substitutionStep "back" (substitutionStep "back" w.exercises).1).1)[i]? =
        some { id := (w.exercises[i]).id ++ "_sub" ++ "_sub",
               name := "Chest Supported Row", type := "", muscleGroups := [],
               weight := (w.exercises[i]).weight * (7/10) * (7/10), sets := 3,
               reps := 10, rpeTarget := 8 } := by
    simp only [substitutionStep, List.getElem?_map, List.getElem?_eq_getElem hi,
               Option.map_some']
    simp [hr1, hsubBack, hr2]
  have hA : ∀ l : List Exercise,
      l[i]?.map (fun e => (e.name, e.weight, e.id)) =
        some ("Chest Supported Row", (w.exercises[i]).weight * (7/10) * (7/10),
              (w.exercises[i]).id ++ "_sub" ++ "_sub") →
      ∃ ex2, l[i]? = some ex2 ∧ ex2.name = "Chest Supported Row" ∧
        ex2.weight = (w.exercises[i]).weight * (7/10) * (7/10) ∧
        ex2.id = (w.exercises[i]).id ++ "_sub" ++ "_sub" := by
    intro l hl
    rcases hx : l[i]? with _ | ex2
    · rw [hx] at hl; simp at hl
    · rw [hx] at hl
      simp only [Option.map_some'] at hl
      have hn := Option.some.inj hl
      exact ⟨ex2, rfl, congrArg (fun t => t.1) hn, congrArg (fun t => t.2.1) hn,
             congrArg (fun t => t.2.2) hn⟩
  rw [generateDailyWorkout_exercises]
  simp only [hflags, List.length_cons, List.length_nil]
  norm_num
  rw [injuryStage_fst]
  simp only [List.foldl]
  -- the working exercise list after the two substitution passes
  set exs1 := (substitutionStep "back" (substitutionStep "back" w.exercises).1).1 with hexs1
  set vol := Autoregulator.adjustVolume { w with exercises := exs1 }
      (calculateReadiness fb) with hvol
  have hcommon : ∃ ex2,
      (if vol.type = "MAINTENANCE" then exs1 else vol.workout.exercises)[i]?
        = some ex2 ∧ ex2.name = "Chest Supported Row" ∧
      ex2.weight = (w.exercises[i]).weight * (7/10) * (7/10) ∧
      ex2.id = (w.exercises[i]).id ++ "_sub" ++ "_sub" := by
    split
    · exact hA exs1 (by rw [hslot2]; rfl)
    · refine hA _ ?_
      rw [hvol, adjustVolume_slot_track]
      show exs1[i]?.map _ = _
      rw [hslot2]
      rfl
  obtain ⟨ex2, hx2, hn2, hw2, hid2⟩ := hcommon
  have hload : (loadStep perfs ex2).1 = ex2 :=
    loadStep_fst_of_find_none _ _ (by
      rw [List.find?_eq_none]
      intro p hp
      simp only [beq_iff_eq, hid2]
      exact hperf p hp)
  split
  · exact ⟨ex2, by rw [List.getElem?_map, hx2]; simp only [Option.map_some', hload],
           hn2, hw2, hid2⟩
  · exact ⟨ex2, hx2, hn2, hw2, hid2⟩

/-- C10 witness: the row plan with pain flags ["back", "back"] and no
history ends with its slot doubly substituted. -/
theorem c10_witness :
    ((generateDailyWorkout sampleUser rowPlan ⟨8, 2, "Low", ["back", "back"]⟩
        []).workout.exercises)[0]?.map (fun ex => (ex.name, ex.weight, ex.id)) =
      some ("Chest Supported Row", rowExercise.weight * (7/10) * (7/10),
            rowExercise.id ++ "_sub" ++ "_sub") :=
  c10_double_back_substitution sampleUser rowPlan ⟨8, 2, "Low", ["back", "back"]⟩ [] 0
    rfl (by simp [rowPlan]) (by decide) (by simp)

/-- C1 witness: the empty plan is processed without error. -/
theorem c1_witness :
    (generateDailyWorkout sampleUser emptyPlan ⟨5, 2, "Low", []⟩ []).workout.exercises = [] :=
  (c1_no_input_validation sampleUser emptyPlan ⟨5, 2, "Low", []⟩ [] rfl).1

/-! ## Frame lemmas for the heap model -/

namespace HeapModel

theorem take_set_of_le {α : Type} (l : List α) (j n : ℕ) (a : α) (h : n ≤ j) :
    (l.set j a).take n = l.take n := by
  induction l generalizing j n with
  | nil => simp
  | cons x xs ih =>
    cases j with
    | zero =>
      have hn : n = 0 := Nat.le_zero.mp h
      simp [hn]
    | succ j =>
      cases n with
      | zero => simp
      | succ n =>
        simp only [List.set_cons_succ, List.take_succ_cons,
                   ih j n (Nat.le_of_succ_le_succ h)]

theorem getD_eq_of_take_eq {α : Type} [Inhabited α] {l l' : List α} {n : ℕ}
    (h : l'.take n = l.take n) (r : ℕ) (hr : r < n) (d : α) :
    l'.getD r d = l.getD r d := by
  rw [List.getD_eq_getElem?_getD, List.getD_eq_getElem?_getD,
      ← List.getElem?_take_of_lt (l := l') hr, ← List.getElem?_take_of_lt (l := l) hr, h]

theorem getD_append_length {α : Type} (l : List α) (x d : α) :
    (l ++ [x]).getD l.length d = x := by
  induction l with
  | nil => rfl
  | cons y ys ih => simp [ih]

theorem extendsFrom_refl (h : Heap) : ExtendsFrom h h :=
  ⟨le_refl _, List.take_length h.exCells, le_refl _, List.take_length h.wCells⟩

theorem extendsFrom_trans {h0 h1 h2 : Heap} (a : ExtendsFrom h0 h1)
    (b : ExtendsFrom h1 h2) : ExtendsFrom h0 h2 := by
  obtain ⟨a1, a2, a3, a4⟩ := a
  obtain ⟨b1, b2, b3, b4⟩ := b
  refine ⟨le_trans a1 b1, ?_, le_trans a3 b3, ?_⟩
  · rw [show h0.exCells.length = min h0.exCells.length h1.exCells.length from
        (min_eq_left a1).symm, ← List.take_take, b2, a2]
  · rw [show h0.wCells.length = min h0.wCells.length h1.wCells.length from
        (min_eq_left a3).symm, ← List.take_take, b4, a4]

theorem extendsFrom_allocEx {h0 h : Heap} (e : Exercise) (hx : ExtendsFrom h0 h) :
    ExtendsFrom h0 (h.allocEx e).1 := by
  obtain ⟨a1, a2, a3, a4⟩ := hx
  refine ⟨?_, ?_, a3, a4⟩
  · simp only [Heap.allocEx, List.length_append, List.length_cons, List.length_nil]
    omega
  · simp only [Heap.allocEx]
    rw [List.take_append_of_le_length a1, a2]

theorem extendsFrom_allocW {h0 h : Heap} (wo : WorkoutObj) (hx : ExtendsFrom h0 h) :
    ExtendsFrom h0 (h.allocW wo).1 := by
  obtain ⟨a1, a2, a3, a4⟩ := hx
  refine ⟨a1, a2, ?_, ?_⟩
  · simp only [Heap.allocW, List.length_append, List.length_cons, List.length_nil]
    omega
  · simp only [Heap.allocW]
    rw [List.take_append_of_le_length a3, a4]

theorem extendsFrom_writeEx {h0 h : Heap} (r : ℕ) (e : Exercise)
    (hx : ExtendsFrom h0 h) (hr : h0.exCells.length ≤ r) :
    ExtendsFrom h0 (h.writeEx r e) := by
  obtain ⟨a1, a2, a3, a4⟩ := hx
  exact ⟨by simpa [Heap.writeEx] using a1,
         by rw [Heap.writeEx]; dsimp only; rw [take_set_of_le _ _ _ _ hr]; exact a2,
         a3, a4⟩

theorem extendsFrom_writeW {h0 h : Heap} (r : ℕ) (wo : WorkoutObj)
    (hx : ExtendsFrom h0 h) (hr : h0.wCells.length ≤ r) :
    ExtendsFrom h0 (h.writeW r wo) := by
  obtain ⟨a1, a2, a3, a4⟩ := hx
  exact ⟨a1, a2, by simpa [Heap.writeW] using a3,
         by rw [Heap.writeW]; dsimp only; rw [take_set_of_le _ _ _ _ hr]; exact a4⟩

theorem readW_eq_of_extendsFrom {h h1 : Heap} (hx : ExtendsFrom h h1) (r : ℕ)
    (hr : r < h.wCells.length) : h1.readW r = h.readW r := by
  rw [Heap.readW, Heap.readW]
  exact getD_eq_of_take_eq (by rw [hx.2.2.2, List.take_length]) r hr default

theorem freshWorkout_mono {h0 h h1 : Heap} {wr : ℕ} (hf : FreshWorkout h0 h wr)
    (hx : ExtendsFrom h h1) : FreshWorkout h0 h1 wr :=
  ⟨hf.1, lt_of_lt_of_le hf.2.1 hx.2.2.1,
   by rw [readW_eq_of_extendsFrom hx wr hf.2.1]; exact hf.2.2⟩

theorem freshWorkout_of_wCells_eq {h0 h h1 : Heap} {wr : ℕ}
    (hf : FreshWorkout h0 h wr) (he : h1.wCells = h.wCells) : FreshWorkout h0 h1 wr := by
  refine ⟨hf.1, ?_, ?_⟩
  · rw [he]; exact hf.2.1
  · rw [Heap.readW, he]; exact hf.2.2

theorem foldl_invariant {α β : Type} (f : β → α → β) (P : β → Prop) :
    ∀ (l : List α) (b : β), P b → (∀ acc a, a ∈ l → P acc → P (f acc a)) →
      P (l.foldl f b) := by
  intro l
  induction l with
  | nil => intro b hb _; exact hb
  | cons x xs ih =>
    intro b hb hf
    exact ih (f b x) (hf b x (by simp) hb)
      (fun acc a ha hacc => hf acc a (List.mem_cons_of_mem x ha) hacc)

theorem readW_writeW_self {h : Heap} {r : ℕ} (wo : WorkoutObj)
    (hr : r < h.wCells.length) : (h.writeW r wo).readW r = wo := by
  rw [Heap.writeW, Heap.readW]
  dsimp only
  rw [List.getD_eq_getElem?_getD, List.getElem?_set_self hr]
  rfl

theorem cloneFold_spec {h0 h : Heap} (hx : ExtendsFrom h0 h) (rs : List ℕ) :
    ExtendsFrom h0 (rs.foldl
        (fun (acc : Heap × List ℕ) r =>
          ((acc.1.allocEx (acc.1.readEx r)).1, acc.2 ++ [(acc.1.allocEx (acc.1.readEx r)).2]))
        (h, [])).1 ∧
    (rs.foldl
        (fun (acc : Heap × List ℕ) r =>
          ((acc.1.allocEx (acc.1.readEx r)).1, acc.2 ++ [(acc.1.allocEx (acc.1.readEx r)).2]))
        (h, [])).1.wCells = h.wCells ∧
    ∀ s ∈ (rs.foldl
        (fun (acc : Heap × List ℕ) r =>
          ((acc.1.allocEx (acc.1.readEx r)).1, acc.2 ++ [(acc.1.allocEx (acc.1.readEx r)).2]))
        (h, [])).2, h0.exCells.length ≤ s := by
  refine foldl_invariant _
    (fun acc => ExtendsFrom h0 acc.1 ∧ acc.1.wCells = h.wCells ∧
      ∀ s ∈ acc.2, h0.exCells.length ≤ s) rs (h, []) ⟨hx, rfl, by simp⟩ ?_
  rintro ⟨hh, refs⟩ r _ ⟨ha, hwc, hrefs⟩
  dsimp only
  refine ⟨extendsFrom_allocEx _ ha, ?_, ?_⟩
  · simpa [Heap.allocEx] using hwc
  · intro s hs
    rcases List.mem_append.mp hs with h1 | h1
    · exact hrefs s h1
    · simp only [List.mem_singleton] at h1
      subst h1
      exact ha.1

theorem cloneWorkout_spec {h0 h : Heap} (wr : ℕ) (hx : ExtendsFrom h0 h) :
    ExtendsFrom h0 (cloneWorkout h wr).1 ∧
    FreshWorkout h0 (cloneWorkout h wr).1 (cloneWorkout h wr).2 := by
  obtain ⟨ha, hwc, hrefs⟩ := cloneFold_spec hx (h.readW wr).exercises
  unfold cloneWorkout
  dsimp only
  constructor
  · exact extendsFrom_allocW _ ha
  · refine ⟨?_, ?_, ?_⟩
    · show h0.wCells.length ≤ _
      simp only [Heap.allocW]
      rw [hwc]
      exact hx.2.2.1
    · simp [Heap.allocW]
    · simp only [Heap.allocW, Heap.readW]
      rw [List.getD_eq_getElem?_getD]
      rw [show ∀ (l : List WorkoutObj) (x : WorkoutObj), (l ++ [x])[l.length]? = some x from
            fun l x => by rw [List.getElem?_append_right (le_refl _)]; simp]
      exact hrefs

theorem substitutionPassH_spec {h0 h : Heap} (p : String) (wr : ℕ)
    (hx : ExtendsFrom h0 h) (hw : FreshWorkout h0 h wr) :
    ExtendsFrom h0 (substitutionPassH p h wr) ∧
    FreshWorkout h0 (substitutionPassH p h wr) wr := by
  unfold substitutionPassH
  refine foldl_invariant _ (fun hh => ExtendsFrom h0 hh ∧ FreshWorkout h0 hh wr)
    _ h ⟨hx, hw⟩ ?_
  rintro hh i _ ⟨ha, hf⟩
  dsimp only
  split
  · constructor
    · exact extendsFrom_writeW _ _ (extendsFrom_allocEx _ ha) hf.1
    · have hval : wr < (hh.allocEx (getSafeSubstitution
          (hh.readEx ((hh.readW wr).exercises.getD i 0)) p)).1.wCells.length := hf.2.1
      refine ⟨hf.1, ?_, ?_⟩
      · simp only [Heap.writeW, List.length_set]
        exact hval
      · rw [readW_writeW_self _ hval]
        intro s hs
        rcases List.mem_or_eq_of_mem_set hs with h1 | h1
        · exact hf.2.2 s h1
        · subst h1
          exact ha.1
  · exact ⟨ha, hf⟩

theorem volumeFoldDeload_spec {h0 : Heap} (rs : List ℕ) (h1 : Heap)
    (hx : ExtendsFrom h0 h1) (hrs : ∀ s ∈ rs, h0.exCells.length ≤ s) :
    ExtendsFrom h0 (rs.foldl
        (fun hh er => hh.writeEx er { hh.readEx er with sets := max 1 ((hh.readEx er).sets / 2) })
        h1) ∧
    (rs.foldl
        (fun hh er => hh.writeEx er { hh.readEx er with sets := max 1 ((hh.readEx er).sets / 2) })
        h1).wCells = h1.wCells := by
  refine foldl_invariant _ (fun hh => ExtendsFrom h0 hh ∧ hh.wCells = h1.wCells)
    rs h1 ⟨hx, rfl⟩ ?_
  intro hh er hmem hacc
  exact ⟨extendsFrom_writeEx _ _ hacc.1 (hrs er hmem),
         by rw [Heap.writeEx]; exact hacc.2⟩

theorem volumeFoldReduce_spec {h0 : Heap} (rs : List ℕ) (h1 : Heap)
    (hx : ExtendsFrom h0 h1) (hrs : ∀ s ∈ rs, h0.exCells.length ≤ s) :
    ExtendsFrom h0 (rs.foldl
        (fun hh er =>
          if 1 < (hh.readEx er).sets then
            hh.writeEx er { hh.readEx er with sets := (hh.readEx er).sets - 1 }
          else hh)
        h1) ∧
    (rs.foldl
        (fun hh er =>
          if 1 < (hh.readEx er).sets then
            hh.writeEx er { hh.readEx er with sets := (hh.readEx er).sets - 1 }
          else hh)
        h1).wCells = h1.wCells := by
  refine foldl_invariant _ (fun hh => ExtendsFrom h0 hh ∧ hh.wCells = h1.wCells)
    rs h1 ⟨hx, rfl⟩ ?_
  intro hh er hmem hacc
  dsimp only
  split
  · exact ⟨extendsFrom_writeEx _ _ hacc.1 (hrs er hmem),
           by rw [Heap.writeEx]; exact hacc.2⟩
  · exact hacc

theorem adjustVolumeH_spec {h0 h : Heap} (wr : ℕ) (r : ℚ)
    (hx : ExtendsFrom h0 h) (hw : FreshWorkout h0 h wr) :
    ExtendsFrom h0 (adjustVolumeH h wr r).1 ∧
    FreshWorkout h0 (adjustVolumeH h wr r).1 (adjustVolumeH h wr r).2.1 ∧
    FreshWorkout h0 (adjustVolumeH h wr r).1 wr := by
  obtain ⟨hca, hcf⟩ := cloneWorkout_spec wr hx
  obtain ⟨hch, _⟩ := cloneWorkout_spec wr (extendsFrom_refl h)
  have hfwr : FreshWorkout h0 (cloneWorkout h wr).1 wr := freshWorkout_mono hw hch
  unfold adjustVolumeH
  dsimp only
  split_ifs with h1 h2
  · obtain ⟨ha, hwc⟩ := volumeFoldDeload_spec _ _ hca hcf.2.2
    exact ⟨ha, freshWorkout_of_wCells_eq hcf hwc, freshWorkout_of_wCells_eq hfwr hwc⟩
  · obtain ⟨ha, hwc⟩ := volumeFoldReduce_spec _ _ hca hcf.2.2
    exact ⟨ha, freshWorkout_of_wCells_eq hcf hwc, freshWorkout_of_wCells_eq hfwr hwc⟩
  · exact ⟨hca, hcf, hfwr⟩

theorem loadPassH_spec {h0 h : Heap} (perfs : List ExercisePerformance) (wr : ℕ)
    (hx : ExtendsFrom h0 h) (hw : FreshWorkout h0 h wr) :
    ExtendsFrom h0 (loadPassH perfs h wr) := by
  unfold loadPassH
  refine foldl_invariant _ (fun hh => ExtendsFrom h0 hh) _ h hx ?_
  intro hh er hmem ha
  dsimp only
  split
  · exact ha
  · split
    · exact extendsFrom_writeEx _ _ ha (hw.2.2 er hmem)
    · exact extendsFrom_writeEx _ _ ha (hw.2.2 er hmem)

end HeapModel

/-- C4: `generateDailyWorkout` never mutates the planned workout.  In the
heap model — where every in-place JS assignment is a store write and the
clone on line 48 allocates fresh cells — every cell that existed before
the call, in particular the planned workout object and every exercise
object it references, holds exactly its pre-call value afterwards,
regardless of which substitution, volume or load rules fired. -/
theorem c4_planned_workout_never_mutated (h : HeapModel.Heap) (u : User) (plannedRef : ℕ)
    (fb : Feedback) (perfs : List ExercisePerformance) :
    (HeapModel.generateDailyWorkoutH h u plannedRef fb perfs).1.exCells.take
        h.exCells.length = h.exCells ∧
    (HeapModel.generateDailyWorkoutH h u plannedRef fb perfs).1.wCells.take
        h.wCells.length = h.wCells := by
  open HeapModel in
  obtain ⟨hca, hcf⟩ := cloneWorkout_spec plannedRef (extendsFrom_refl h)
  unfold HeapModel.generateDailyWorkoutH
  dsimp only
  set c := HeapModel.cloneWorkout h plannedRef with hc
  set h2 := if 0 < fb.painFlags.length then
      fb.painFlags.foldl (fun hh p => HeapModel.substitutionPassH p hh c.2) c.1
    else c.1 with hh2
  have hstage2 : HeapModel.ExtendsFrom h h2 ∧ HeapModel.FreshWorkout h h2 c.2 := by
    rw [hh2]
    split
    · refine HeapModel.foldl_invariant _
        (fun hh => HeapModel.ExtendsFrom h hh ∧ HeapModel.FreshWorkout h hh c.2)
        _ _ ⟨hca, hcf⟩ ?_
      intro hh p _ hacc
      exact HeapModel.substitutionPassH_spec p c.2 hacc.1 hacc.2
    · exact ⟨hca, hcf⟩
  obtain ⟨hva, hvf, hvw⟩ := HeapModel.adjustVolumeH_spec c.2 (calculateReadiness fb)
    hstage2.1 hstage2.2
  set v := HeapModel.adjustVolumeH h2 c.2 (calculateReadiness fb) with hv
  set workRef := if v.2.2 ≠ "MAINTENANCE" then v.2.1 else c.2 with hwr
  have hfw : HeapModel.FreshWorkout h v.1 workRef := by
    rw [hwr]
    split
    · exact hvf
    · exact hvw
  have hfinal : HeapModel.ExtendsFrom h
      (if calculateReadiness fb ≥ 40 then HeapModel.loadPassH perfs v.1 workRef
       else v.1) := by
    split
    · exact HeapModel.loadPassH_spec perfs workRef hva hfw
    · exact hva
  exact ⟨hfinal.2.1, hfinal.2.2.2⟩

end GymSite
